import Mathlib

/-
Verification development for the server-side virtual-DOM engine in
src/src/frontends/lean/widget.cpp.  The C++ code is shallowly embedded:
host-runtime values (vm_obj) become the inductive type VObj with host
closure invocation supplied by a Host structure of functions; the two
process-wide counters and the task queue become an explicit World record
threaded through the definitions; C++ exceptions become Except; the
mutually recursive reconcile/render family, whose recursion depth depends
on what host closures return, is given explicit fuel (a result of none
means the fuel ran out, never a verdict about the code).

Declarations that embed code living in widget.h (which is not part of the
sources, only widget.cpp is) are marked in their doc comments as modelled
from the spec.
-/

/-- Embedding of vm_obj: a constructor cell with index and fields (cidx /
cfield in the source), strings, machine numbers, and a junk value used
where the C++ would read an empty optional or a null handle (undefined
behaviour in the source). -/
inductive VObj : Type where
  | mk (cidx : Nat) (fields : List VObj)
  | str (s : String)
  | num (n : Nat)
  | junk

/-- Embedding of mk_vm_none: the constructor cell with index 0 and no fields. -/
def vnone : VObj := .mk 0 []

/-- Embedding of mk_vm_some. -/
def vsome (v : VObj) : VObj := .mk 1 [v]

/-- Embedding of mk_vm_pair. -/
def vpair (a b : VObj) : VObj := .mk 0 [a, b]

/-- Embedding of mk_vm_simple. -/
def vsimple (n : Nat) : VObj := .mk n []

/-- Embedding of cfield: read a positional field, junk when out of range. -/
def VObj.field : VObj → Nat → VObj
  | .mk _ fs, i => fs.getD i .junk
  | _, _ => .junk

/-- Embedding of get_optional: constructor index 1 carries a value, anything
else is none. -/
def getOpt : VObj → Option VObj
  | .mk 1 (v :: _) => some v
  | _ => none

/-- Embedding of to_bool: constructor index 0 is false. -/
def toBool : VObj → Bool
  | .mk 0 _ => false
  | _ => true

mutual
/-- Embedding of vm_obj equality as used by the reconciler (p_new != p_old):
two handles are equal when they denote the same value. -/
def VObj.beq : VObj → VObj → Bool
  | .mk i fs, .mk j gs => i == j && VObj.beqList fs gs
  | .str a, .str b => a == b
  | .num a, .num b => a == b
  | .junk, .junk => true
  | _, _ => false

/-- Pointwise equality of vm_obj field lists. -/
def VObj.beqList : List VObj → List VObj → Bool
  | [], [] => true
  | a :: as, b :: bs => VObj.beq a b && VObj.beqList as bs
  | _, _ => false
end

/-- Json values stored in a rendered element's attribute map: strings and
the style sub-object. -/
inductive JVal : Type where
  | s (v : String)
  | obj (fields : List (String × String))

/-- Mouse event kinds of the html DSL (cases 0, 1, 2 of the mouse_event
switch in render_element). -/
inductive MouseEventKind : Type where
  | click
  | enter
  | leave

mutual
/-- Embedding of the html attr variants decoded by render_element
(attr_idx val / mouse_event / style / tooltip / text_change_event). -/
inductive Attr : Type where
  | val (key value : String)
  | mouseEvent (kind : MouseEventKind) (handler : VObj)
  | style (pairs : List (String × String))
  | tooltip (content : Html)
  | textChangeEvent (handler : VObj)

/-- Embedding of the html variants decoded by render_html
(html_idx element / of_string / of_component). -/
inductive Html : Type where
  | element (tag : String) (attrs : List Attr) (children : List Html)
  | ofString (s : String)
  | ofComponent (props : VObj) (comp : Component)

/-- Embedding of the component description variants peeled by the
component_instance constructor (component_idx pure / filter_map_action /
map_props / with_should_update / with_state / with_task /
with_mouse_capture). -/
inductive Component : Type where
  | pure (view : VObj)
  | filterMapAction (map : VObj) (rest : Component)
  | mapProps (map : VObj) (rest : Component)
  | withShouldUpdate (su : VObj) (rest : Component)
  | withState (init update : VObj) (rest : Component)
  | withTask (tb : VObj) (rest : Component)
  | withMouseCapture (rest : Component)
end

/-- Embedding of the hook objects: one variant per component_hook subclass,
carrying exactly the mutable state of the C++ object (m_props as an option
because ts_vm_obj starts null; the task handle as an optional task id; the
mouse capture state as its numeric enum value). -/
inductive Hook : Type where
  | filterMapAction (map : VObj) (props : Option VObj)
  | mapProps (map : VObj)
  | withShouldUpdate (su : VObj) (props : Option VObj)
  | withState (init update : VObj) (props : Option VObj) (state : Option VObj)
  | withTask (tb : VObj) (task : Option Nat)
  | withMouseCapture (s : Nat)

/-- Process-wide mutable context: the two fresh-id counters
(g_fresh_handler_id, g_fresh_component_instance_id), the task queue's
submitted tasks, and the routes for which a completion notification has
been registered with the pending-task sink.  The source's
with_task_hook::initialize leaves the registration as a commented-out
TODO, so nothing in the embedded code ever extends pendingRoutes. -/
structure World where
  nextHandlerId : Nat
  nextInstanceId : Nat
  nextTaskId : Nat
  submitted : List Nat
  pendingRoutes : List (List Nat)

/-- Host runtime interface: closure invocation with one, two or three
arguments, view invocation (a view closure returns a list of html values),
task peeking, and the deterministic hash of a component description. -/
structure Host where
  invoke1 : VObj → VObj → VObj
  invoke2 : VObj → VObj → VObj → VObj
  invoke3 : VObj → VObj → VObj → VObj → VObj
  invokeView : VObj → VObj → List Html
  peek : Nat → Option VObj
  hashC : Component → Nat

/-- Insert-or-replace on an association list, the embedding of writing
through std::map operator[] (and of json object assignment). -/
def upsert {κ β : Type} [BEq κ] : List (κ × β) → κ → β → List (κ × β)
  | [], k, v => [(k, v)]
  | (k0, v0) :: rest, k, v =>
    if k0 == k then (k0, v) :: rest else (k0, v0) :: upsert rest k v

/-- Lookup on an association list, the embedding of std::map find. -/
def lookupA {κ β : Type} [BEq κ] : List (κ × β) → κ → Option β
  | [], _ => none
  | (k0, v0) :: rest, k => if k0 == k then some v0 else lookupA rest k

/-- Embedding of the prior-state argument computed by
stateful_hook::initialize.  The source reads
s = m_state ? mk_vm_none() : mk_vm_some(*m_state): when state is present
it passes none, and when state is absent it dereferences the empty
optional (undefined behaviour, embedded as junk). -/
def statefulInitArg : Option VObj → VObj
  | some _ => vnone
  | none => vsome VObj.junk

/-- Embedding of the invoke(m_init, props, s) call of
stateful_hook::initialize; the new state is the raw result. -/
def statefulInit (H : Host) (init p : VObj) (st : Option VObj) : VObj :=
  H.invoke2 init p (statefulInitArg st)

/-- Embedding of stateful_hook::reconcile in the branch where the prior
hook is also a stateful_hook: adopt the prior state, then call initialize
twice (the second call is unconditional in the source).  The second
component records, in order, the prior-state arguments passed to the init
closure by each initialize call. -/
def statefulReconcileTrace (H : Host) (init p : VObj) (prevState : Option VObj) :
    Option VObj × List VObj :=
  let s1 := statefulInitArg prevState
  let r1 := H.invoke2 init p s1
  let s2 := statefulInitArg (some r1)
  let r2 := H.invoke2 init p s2
  (some r2, [s1, s2])

/-- Embedding of the initialize capability of each hook.  filter_map_action
and with_should_update store the props; with_state runs statefulInit;
with_task builds and submits the task when none is pending and, per the
TODO left in the source, registers no completion notification; the
remaining hooks use the base-class default.  Modelled from the spec where
widget.h decides: the base-class default initialize observably stores
nothing, embedded as a no-op. -/
def Hook.initialize (H : Host) (p : VObj) : Hook → World → Hook × World
  | .filterMapAction m _, w => (.filterMapAction m (some p), w)
  | .mapProps m, w => (.mapProps m, w)
  | .withShouldUpdate su _, w => (.withShouldUpdate su (some p), w)
  | .withState init upd _ st, w =>
    (.withState init upd (some p) (some (statefulInit H init p st)), w)
  | .withTask tb task, w =>
    match task with
    | some t => (.withTask tb (some t), w)
    | none =>
      let tid := w.nextTaskId
      (.withTask tb (some tid),
       { w with nextTaskId := tid + 1, submitted := w.submitted ++ [tid] })
  | .withMouseCapture s, w => (.withMouseCapture s, w)

/-- Embedding of the get_props capability of each hook.  map_props invokes
its closure; with_state initializes first when no state is present and
returns the (state, props) pair; with_task returns the (peek result,
props) pair; with_mouse_capture returns mk_vm_simple(0) paired with the
props exactly as the source does, ignoring its stored capture state;
filter_map_action and with_should_update use the base-class identity
default (modelled from the spec where widget.h decides). -/
def Hook.getProps (H : Host) (p : VObj) : Hook → VObj × Hook
  | .filterMapAction m pr => (p, .filterMapAction m pr)
  | .mapProps m => (H.invoke1 m p, .mapProps m)
  | .withShouldUpdate su pr => (p, .withShouldUpdate su pr)
  | .withState init upd pr st =>
    match st with
    | none =>
      let r := statefulInit H init p none
      (vpair r p, .withState init upd (some p) (some r))
    | some s => (vpair s p, .withState init upd pr (some s))
  | .withTask tb task =>
    match task with
    | some t =>
      (vpair (match H.peek t with | some r => vsome r | none => vnone) p,
       .withTask tb (some t))
    | none => (vpair vnone p, .withTask tb none)
  | .withMouseCapture s => (vpair (vsimple 0) p, .withMouseCapture s)

/-- Embedding of the reconcile capability of each hook, called with the new
props and the prior instance's hook at the same position.
filter_map_action stores the props and answers true; with_should_update
invokes its predicate on (prior props, new props) when the prior hook is a
with_should_update with stored props, else answers true without storing;
with_state adopts the prior state and initializes twice when the prior
hook is a with_state, else initializes once, answering true; with_task
re-runs initialize; the rest use the base-class default true (modelled
from the spec where widget.h decides). -/
def Hook.reconcile (H : Host) (p : VObj) : Hook → Hook → World → Bool × Hook × World
  | .filterMapAction m _, _, w => (true, .filterMapAction m (some p), w)
  | .mapProps m, _, w => (true, .mapProps m, w)
  | .withShouldUpdate su pr, old, w =>
    (match old with
     | .withShouldUpdate _ (some prevProps) =>
       (toBool (H.invoke2 su prevProps p), .withShouldUpdate su (some p), w)
     | _ => (true, .withShouldUpdate su pr, w))
  | .withState init upd _ st, old, w =>
    (match old with
     | .withState _ _ _ prevSt =>
       (true, .withState init upd (some p) (statefulReconcileTrace H init p prevSt).1, w)
     | _ => (true, .withState init upd (some p) (some (statefulInit H init p st)), w))
  | .withTask tb task, _, w =>
    let r := Hook.initialize H p (.withTask tb task) w
    (true, r.1, r.2)
  | .withMouseCapture s, _, w => (true, .withMouseCapture s, w)

/-- Embedding of the action capability of each hook.  filter_map_action
invokes its closure on (stored props, action) and unwraps the option;
with_state invokes update on (props, state, action), stores the first
component and unwraps the second; every other hook passes the action on
unchanged (base-class default, modelled from the spec where widget.h
decides). -/
def Hook.action (H : Host) (a : VObj) : Hook → Option VObj × Hook
  | .filterMapAction m pr =>
    (getOpt (H.invoke2 m (pr.getD .junk) a), .filterMapAction m pr)
  | .mapProps m => (some a, .mapProps m)
  | .withShouldUpdate su pr => (some a, .withShouldUpdate su pr)
  | .withState init upd pr st =>
    let r := H.invoke3 upd (pr.getD .junk) (st.getD .junk) a
    (getOpt (r.field 1), .withState init upd pr (some (r.field 0)))
  | .withTask tb task => (some a, .withTask tb task)
  | .withMouseCapture s => (some a, .withMouseCapture s)

/-- Non-recursive fields of a component_instance: identity, route to the
parent, reconciliation hash, outer and inner props, hook chain, view
closure, render flag, reconcile counter, and the handler table built by
the last render. -/
structure InstCore where
  id : Nat
  route : List Nat
  componentHash : Nat
  props : VObj
  innerProps : Option VObj
  hooks : List Hook
  view : VObj
  hasRendered : Bool
  reconcileCount : Nat
  handlers : List (Nat × VObj)

mutual
/-- Embedding of the vdom variants: text (vdom_string), element
(vdom_element with tag, attribute map, event map, children and optional
tooltip) and component reference (a component_instance). -/
inductive Vdom : Type where
  | text (s : String)
  | elem (tag : String) (attrs : List (String × JVal)) (events : List (String × Nat))
      (children : List Vdom) (tooltip : Option Vdom)
  | comp (inst : Inst)

/-- Embedding of component_instance: the scalar core plus the last
rendered vdom list (m_render) and the child instances collected during
the last render (m_children).  In the C++ the children vector holds
pointers into the render tree; here the children list holds the same
instances by value, kept in sync by the render embedding. -/
inductive Inst : Type where
  | mk (core : InstCore) (render : List Vdom) (children : List Inst)
end

/-- Core field projection of a component instance. -/
def Inst.core : Inst → InstCore
  | .mk c _ _ => c

/-- Last rendered vdom list of a component instance (m_render). -/
def Inst.render : Inst → List Vdom
  | .mk _ r _ => r

/-- Child component instances of a component instance (m_children). -/
def Inst.children : Inst → List Inst
  | .mk _ _ cs => cs

/-- Instance id shorthand. -/
def Inst.id (i : Inst) : Nat := i.core.id

/-- Replace the children list of an instance. -/
def Inst.setChildren : Inst → List Inst → Inst
  | .mk c r _, cs => .mk c r cs

/-- Replace the hook chain of an instance. -/
def Inst.setHooks : Inst → List Hook → Inst
  | .mk c r ch, hs => .mk { c with hooks := hs } r ch

/-- Embedding of the component-description peeling loop of the
component_instance constructor: walk the variant chain from outermost to
innermost, building one hook per layer (with_state starts with no state;
with_task starts with no task; the mouse capture state starts at outside,
modelled from the spec since the C++ member is default-initialized in
widget.h), and return the peeled hooks together with the view closure of
the pure leaf. -/
def Component.peel : Component → List Hook × VObj
  | .pure view => ([], view)
  | .filterMapAction m rest =>
    let r := Component.peel rest
    (.filterMapAction m none :: r.1, r.2)
  | .mapProps m rest =>
    let r := Component.peel rest
    (.mapProps m :: r.1, r.2)
  | .withShouldUpdate su rest =>
    let r := Component.peel rest
    (.withShouldUpdate su none :: r.1, r.2)
  | .withState init upd rest =>
    let r := Component.peel rest
    (.withState init upd none none :: r.1, r.2)
  | .withTask tb rest =>
    let r := Component.peel rest
    (.withTask tb none :: r.1, r.2)
  | .withMouseCapture rest =>
    let r := Component.peel rest
    (.withMouseCapture 0 :: r.1, r.2)

/-- Embedding of the component_instance constructor: draw a fresh id from
the process-wide counter, start the reconcile counter at zero, hash the
component description, peel the hook chain, and leave the instance
uninitialized and unrendered (inner props, render list, children and
handler table empty; hooks are not invoked yet). -/
def mkComponentInstance (H : Host) (comp : Component) (props : VObj)
    (route : List Nat) (w : World) : Inst × World :=
  let pl := Component.peel comp
  (.mk
    { id := w.nextInstanceId
      route := route
      componentHash := H.hashC comp
      props := props
      innerProps := none
      hooks := pl.1
      view := pl.2
      hasRendered := false
      reconcileCount := 0
      handlers := [] }
    [] [],
   { w with nextInstanceId := w.nextInstanceId + 1 })

/-- Accumulators of the attribute-decoding loop of render_element: the json
attribute map, the event-name-to-handler-id map, and the optional tooltip
vdom. -/
structure AttrAcc where
  attributes : List (String × JVal)
  events : List (String × Nat)
  tooltip : Option Vdom

/-- Embedding of one style attribute: merge each (k, v) pair into the style
sub-object of the attribute map (a prior non-object style value would make
the json assignment in the source throw; that case is unreached by the
claims and embedded as starting a fresh object). -/
def setStyle (attrs : List (String × JVal)) (k v : String) : List (String × JVal) :=
  match lookupA attrs "style" with
  | some (.obj o) => upsert attrs "style" (.obj (upsert o k v))
  | _ => upsert attrs "style" (.obj (upsert [] k v))

/-- Fold of setStyle over the pair list of a style attribute. -/
def styleMerge (attrs : List (String × JVal)) (pairs : List (String × String)) :
    List (String × JVal) :=
  pairs.foldl (fun a p => setStyle a p.1 p.2) attrs

/-- Embedding of the val-attribute case of render_element: set the
attribute, except that a className value is appended, space-separated, to
an already present className. -/
def applyValAttr (attrs : List (String × JVal)) (k v : String) :
    List (String × JVal) :=
  if k == "className" then
    match lookupA attrs k with
    | some (.s cn) => upsert attrs k (.s (cn ++ " " ++ v))
    | some (.obj _) => upsert attrs k (.s v)
    | none => upsert attrs k (.s v)
  else upsert attrs k (.s v)

/-- Event name of a mouse event kind (cases 0, 1, 2 of render_element). -/
def mouseEventName : MouseEventKind → String
  | .click => "onClick"
  | .enter => "onMouseEnter"
  | .leave => "onMouseLeave"

mutual
/-- Embedding of render_html: dispatch on the html variant, building a
text node, a fresh (uninitialized) component instance, or an element.
Returns the vdom together with the handler registrations performed
(render_event writes handlers[id] = handler) and the updated world. -/
def renderHtml (H : Host) : Html → List Nat → World → Vdom × List (Nat × VObj) × World
  | .ofString s, _, w => (.text s, [], w)
  | .ofComponent props comp, route, w =>
    let r := mkComponentInstance H comp props route w
    (.comp r.1, [], r.2)
  | .element tag attrs children, route, w =>
    let a := renderAttrList H attrs ⟨[], [], none⟩ route w
    let c := renderHtmlListM H children route a.2.2
    (.elem tag a.1.attributes a.1.events c.1 a.1.tooltip, a.2.1 ++ c.2.1, c.2.2)

/-- Embedding of render_html_list: render each html value left to right,
collecting vdoms and handler registrations. -/
def renderHtmlListM (H : Host) : List Html → List Nat → World → List Vdom × List (Nat × VObj) × World
  | [], _, w => ([], [], w)
  | h :: hs, route, w =>
    let v := renderHtml H h route w
    let vs := renderHtmlListM H hs route v.2.2
    (v.1 :: vs.1, v.2.1 ++ vs.2.1, vs.2.2)

/-- Embedding of the attribute-decoding loop of render_element: walk the
attribute list in order; val attributes update the attribute map through
applyValAttr; mouse and text-change events draw a fresh handler id, write
it into the event map under the event name and register the handler;
style merges pairs into the style sub-object; tooltip renders its content
recursively and stores the result. -/
def renderAttrList (H : Host) : List Attr → AttrAcc → List Nat → World → AttrAcc × List (Nat × VObj) × World
  | [], acc, _, w => (acc, [], w)
  | .val k v :: rest, acc, route, w =>
    renderAttrList H rest ⟨applyValAttr acc.attributes k v, acc.events, acc.tooltip⟩ route w
  | .mouseEvent kind handler :: rest, acc, route, w =>
    let hid := w.nextHandlerId
    let r := renderAttrList H rest
      ⟨acc.attributes, upsert acc.events (mouseEventName kind) hid, acc.tooltip⟩
      route { w with nextHandlerId := hid + 1 }
    (r.1, (hid, handler) :: r.2.1, r.2.2)
  | .style pairs :: rest, acc, route, w =>
    renderAttrList H rest ⟨styleMerge acc.attributes pairs, acc.events, acc.tooltip⟩ route w
  | .tooltip content :: rest, acc, route, w =>
    let t := renderHtml H content route w
    let r := renderAttrList H rest ⟨acc.attributes, acc.events, some t.1⟩ route t.2.2
    (r.1, t.2.1 ++ r.2.1, r.2.2)
  | .textChangeEvent handler :: rest, acc, route, w =>
    let hid := w.nextHandlerId
    let r := renderAttrList H rest
      ⟨acc.attributes, upsert acc.events "onChange" hid, acc.tooltip⟩
      route { w with nextHandlerId := hid + 1 }
    (r.1, (hid, handler) :: r.2.1, r.2.2)
end

/-- Embedding of vdom_element::key: the value of the key attribute when it
is present and a string; other vdom variants have no key (base-class
default, modelled from the spec where widget.h decides). -/
def Vdom.key : Vdom → Option String
  | .elem _ attrs _ _ _ =>
    (match lookupA attrs "key" with
     | some (.s k) => some k
     | _ => none)
  | _ => none

mutual
/-- Component instances referenced by a vdom subtree, in traversal order
(tooltip before children, matching the C++ collection order).  Used to
keep m_children in sync with the reconciled render tree, which the C++
achieves by pointer sharing. -/
def Vdom.comps : Vdom → List Inst
  | .text _ => []
  | .elem _ _ _ children tooltip =>
    (match tooltip with
     | some t => Vdom.comps t
     | none => []) ++ compsList children
  | .comp c => [c]

/-- Component instances referenced by a vdom list, left to right. -/
def compsList : List Vdom → List Inst
  | [] => []
  | v :: vs => Vdom.comps v ++ compsList vs
end

/-- Embedding of the hook loop of component_instance::initialize: for each
hook in order, call initialize then pass the props through get_props. -/
def initHooksLoop (H : Host) : List Hook → VObj → World → List Hook × VObj × World
  | [], p, w => ([], p, w)
  | h :: hs, p, w =>
    let i := Hook.initialize H p h w
    let g := Hook.getProps H p i.1
    let r := initHooksLoop H hs g.1 i.2
    (g.2 :: r.1, r.2)

/-- Embedding of component_instance::initialize: run the hook loop on the
outer props and store the result as the inner props. -/
def Inst.initializeNow (H : Host) (inst : Inst) (w : World) : Inst × World :=
  let r := initHooksLoop H inst.core.hooks inst.core.props w
  (.mk { inst.core with hooks := r.1, innerProps := some r.2.1 }
     inst.render inst.children,
   r.2.2)

/-- Embedding of the hook loop of component_instance::reconcile: walk the
new and old hook chains in lockstep with the running should_update flag;
while the flag holds, fold in each hook's reconcile verdict; once the
flag is false the new hook is replaced by the old one, otherwise the
props are passed through the new hook's get_props.  The C++ asserts the
two chains have equal length; on a length mismatch the loop stops. -/
def reconcileHooksLoop (H : Host) : List Hook → List Hook → VObj → Bool → World →
    List Hook × VObj × Bool × World
  | [], _, p, su, w => ([], p, su, w)
  | h :: hs, [], p, su, w => (h :: hs, p, su, w)
  | h :: hs, oh :: ohs, p, su, w =>
    let step :=
      if su then
        let r := Hook.reconcile H p h oh w
        (su && r.1, r.2.1, r.2.2)
      else (su, h, w)
    if step.1 then
      let g := Hook.getProps H p step.2.1
      let r := reconcileHooksLoop H hs ohs g.1 step.1 step.2.2
      (g.2 :: r.1, r.2)
    else
      let r := reconcileHooksLoop H hs ohs p step.1 step.2.2
      (oh :: r.1, r.2)

/-- Value of the should_update flag after the hook loop of
component_instance::reconcile, starting from the props comparison
p_new != p_old. -/
def shouldUpdateAfterHooks (H : Host) (inst old : Inst) (w : World) : Bool :=
  let su0 := if VObj.beq inst.core.props old.core.props then false else true
  (reconcileHooksLoop H inst.core.hooks old.core.hooks inst.core.props su0 w).2.2.1

mutual
/-- Embedding of vdom reconciliation dispatched on the new node: text
nodes do nothing; elements with an equally tagged old element reconcile
their children and, when both sides have one, their tooltips; component
references run component_instance::reconcile; every other pairing leaves
the new node as built.  Fuel bounds the recursion (none = fuel ran out). -/
def Vdom.reconcileF (H : Host) : Nat → Vdom → Vdom → World → Option (Vdom × World)
  | 0, _, _, _ => none
  | _fuel+1, .text s, _, w => some (.text s, w)
  | fuel+1, .elem tag attrs events children tooltip, old, w =>
    (match old with
     | .elem otag _ _ ochildren otooltip =>
       if otag == tag then
         match reconcileChildrenF H fuel children ochildren w with
         | some cw =>
           (match tooltip, otooltip with
            | some t, some ot =>
              match Vdom.reconcileF H fuel t ot cw.2 with
              | some tw => some (.elem tag attrs events cw.1 (some tw.1), tw.2)
              | none => none
            | _, _ => some (.elem tag attrs events cw.1 tooltip, cw.2))
         | none => none
       else some (.elem tag attrs events children tooltip, w)
     | _ => some (.elem tag attrs events children tooltip, w))
  | fuel+1, .comp c, old, w =>
    match Inst.reconcileF H fuel c old w with
    | some cw => some (.comp cw.1, cw.2)
    | none => none

/-- Embedding of component_instance::reconcile: when the old node is a
component instance with the same component hash, compare props, run the
hook loop, and either adopt the old instance's inner props, render,
children, id and reconcile count (not-should_update path) or store the
folded props and re-render; otherwise initialize and render as a fresh
component. -/
def Inst.reconcileF (H : Host) : Nat → Inst → Vdom → World → Option (Inst × World)
  | 0, _, _, _ => none
  | fuel+1, inst, old, w =>
    match old with
    | .comp ciOld =>
      if inst.core.componentHash == ciOld.core.componentHash then
        let pNew := inst.core.props
        let su0 := if VObj.beq pNew ciOld.core.props then false else true
        let l := reconcileHooksLoop H inst.core.hooks ciOld.core.hooks pNew su0 w
        if l.2.2.1 then
          Inst.renderF H fuel
            (.mk { inst.core with hooks := l.1, innerProps := some l.2.1 }
               inst.render inst.children)
            l.2.2.2
        else
          some (.mk
            { inst.core with
                hooks := l.1
                innerProps := ciOld.core.innerProps
                id := ciOld.core.id
                hasRendered := true
                reconcileCount := ciOld.core.reconcileCount + 1 }
            ciOld.render ciOld.children,
           l.2.2.2)
      else
        let i := Inst.initializeNow H inst w
        Inst.renderF H fuel i.1 i.2
    | _ =>
      let i := Inst.initializeNow H inst w
      Inst.renderF H fuel i.1 i.2

/-- Embedding of component_instance::render: invoke the view on the inner
props (the source asserts inner props are set; the unset case is stuck),
render the resulting html list under the route extended with this
instance's id, reconcile the new elements against the previous render,
and only then overwrite the handler table, children and render list and
set the rendered flag.  Children are the component instances of the
reconciled elements, which the C++ shares by pointer. -/
def Inst.renderF (H : Host) : Nat → Inst → World → Option (Inst × World)
  | 0, _, _ => none
  | fuel+1, inst, w =>
    match inst.core.innerProps with
    | none => none
    | some ip =>
      let htmls := H.invokeView inst.core.view ip
      let r := renderHtmlListM H htmls (inst.core.id :: inst.core.route) w
      match reconcileChildrenF H fuel r.1 inst.render r.2.2 with
      | some ew =>
        some (.mk { inst.core with handlers := r.2.1, hasRendered := true }
          ew.1 (compsList ew.1), ew.2)
      | none => none

/-- Embedding of reconcile_children: walk the new elements left to right;
a keyed new element is reconciled against the first remaining old element
with an equal key, which is then removed from the candidates; a keyless
new element is reconciled against the first remaining candidate when one
exists; otherwise the new element is left as built. -/
def reconcileChildrenF (H : Host) : Nat → List Vdom → List Vdom → World → Option (List Vdom × World)
  | 0, _, _, _ => none
  | _fuel+1, [], _, w => some ([], w)
  | fuel+1, n :: ns, olds, w =>
    match Vdom.key n with
    | some k =>
      (match olds.findIdx? (fun o => Vdom.key o == some k) with
       | some j =>
         (match olds.get? j with
          | some o =>
            (match Vdom.reconcileF H fuel n o w with
             | some nw =>
               (match reconcileChildrenF H fuel ns (olds.eraseIdx j) nw.2 with
                | some nsw => some (nw.1 :: nsw.1, nsw.2)
                | none => none)
             | none => none)
          | none => none)
       | none =>
         (match reconcileChildrenF H fuel ns olds w with
          | some nsw => some (n :: nsw.1, nsw.2)
          | none => none))
    | none =>
      match olds with
      | [] =>
        (match reconcileChildrenF H fuel ns [] w with
         | some nsw => some (n :: nsw.1, nsw.2)
         | none => none)
      | o :: os =>
        (match Vdom.reconcileF H fuel n o w with
         | some nw =>
           (match reconcileChildrenF H fuel ns os nw.2 with
            | some nsw => some (nw.1 :: nsw.1, nsw.2)
            | none => none)
         | none => none)
end

/-- Error outcomes of the event entry points: invalid_handler as thrown by
the source; oobRead marks the out-of-bounds vector read that the unsigned
loop of handle_action performs; nullInvoke marks the invocation of the
default-constructed (null) handler that std::map operator[] inserts for an
absent handler id; outOfFuel is the artificial fuel bound. -/
inductive EvErr : Type where
  | invalidHandler
  | oobRead
  | nullInvoke
  | outOfFuel
deriving DecidableEq

/-- Embedding of the loop of component_instance::handle_action, index value
and all: i is the value of the unsigned loop variable, starting at
size - 1 wrapped to 32 bits; each pass first breaks when the running
result is none, then reads m_hooks[i] - a read out of bounds when
i is not below the length, which is what the source does after the
unsigned index wraps past zero (i >= 0 always holds) - applies the hook's
action, and decrements the index in 32-bit unsigned arithmetic. -/
def handleActionLoop (H : Host) : Nat → List Hook → Nat → Option VObj →
    Except EvErr (Option VObj × List Hook)
  | 0, _, _, _ => .error .outOfFuel
  | fuel+1, hooks, i, result =>
    match result with
    | none => .ok (none, hooks)
    | some a =>
      if h : i < hooks.length then
        let r := Hook.action H a (hooks.get ⟨i, h⟩)
        handleActionLoop H fuel (hooks.set i r.2) ((i + (2 ^ 32 - 1)) % 2 ^ 32) r.1
      else .error .oobRead

/-- Embedding of component_instance::handle_action: run the loop from
index size - 1 (computed in 32-bit unsigned arithmetic) with the action
as the initial result. -/
def Inst.handleActionE (H : Host) (fuel : Nat) (a : VObj) (inst : Inst) :
    Except EvErr (Option VObj × Inst) :=
  match handleActionLoop H fuel inst.core.hooks
      ((inst.core.hooks.length + (2 ^ 32 - 1)) % 2 ^ 32) (some a) with
  | .ok r => .ok (r.1, inst.setHooks r.2)
  | .error e => .error e

/-- Embedding of component_instance::handle_event.  At the empty route the
handler table is consulted: a present handler is invoked on the event
arguments and the resulting action is passed through handle_action; for an
absent handler id the source's std::map operator[] inserts a
default-constructed handler and invokes the null value (nullInvoke), it
does not throw invalid_handler.  At a non-empty route the first child
whose id equals the head is recursed into with the tail; a bubbled action
passes through this instance's handle_action; when no child matches, the
source throws invalid_handler. -/
def Inst.handleEventF (H : Host) : Nat → List Nat → Nat → VObj → Inst →
    Except EvErr (Option VObj × Inst)
  | 0, _, _, _, _ => .error .outOfFuel
  | _fuel+1, [], hid, args, inst =>
    (match lookupA inst.core.handlers hid with
     | none => .error .nullInvoke
     | some f => Inst.handleActionE H _fuel (H.invoke1 f args) inst)
  | fuel+1, hd :: rest, hid, args, inst =>
    match inst.children.findIdx? (fun c => c.core.id == hd) with
    | some j =>
      (match inst.children.get? j with
       | some c =>
         (match Inst.handleEventF H fuel rest hid args c with
          | .error e => .error e
          | .ok (some a, c2) =>
            Inst.handleActionE H fuel a (inst.setChildren (inst.children.set j c2))
          | .ok (none, c2) =>
            .ok (none, inst.setChildren (inst.children.set j c2)))
       | none => .error .invalidHandler)
    | none => .error .invalidHandler

/-- Embedding of component_instance::handle_task_completed: at the empty
route, initialize then render; otherwise forward to the first child whose
id equals the head of the route, and silently return when no child
matches. -/
def Inst.handleTaskCompletedF (H : Host) : Nat → List Nat → Inst → World →
    Option (Inst × World)
  | 0, _, _, _ => none
  | fuel+1, [], inst, w =>
    let i := Inst.initializeNow H inst w
    Inst.renderF H fuel i.1 i.2
  | fuel+1, hd :: rest, inst, w =>
    match inst.children.findIdx? (fun c => c.core.id == hd) with
    | some j =>
      (match inst.children.get? j with
       | some c =>
         (match Inst.handleTaskCompletedF H fuel rest c w with
          | some cw => some (inst.setChildren (inst.children.set j cw.1), cw.2)
          | none => none)
       | none => some (inst, w))
    | none => some (inst, w)

/-- Embedding of the hook walk of component_instance::update_capture_state:
set every with_mouse_capture hook's state to the given value, recording
whether any state actually changed. -/
def setCaptureStates (s : Nat) : List Hook → List Hook × Bool
  | [] => ([], false)
  | .withMouseCapture s0 :: hs =>
    let r := setCaptureStates s hs
    (.withMouseCapture s :: r.1, (if s0 == s then false else true) || r.2)
  | h :: hs =>
    let r := setCaptureStates s hs
    (h :: r.1, r.2)

/-- Embedding of component_instance::update_capture_state: update the
mouse capture hooks and, when some state changed, re-initialize and
re-render. -/
def Inst.updateCaptureStateF (H : Host) (fuel : Nat) (s : Nat) (inst : Inst)
    (w : World) : Option (Inst × World) :=
  let r := setCaptureStates s inst.core.hooks
  let inst1 := inst.setHooks r.1
  if r.2 then
    let i := Inst.initializeNow H inst1 w
    Inst.renderF H fuel i.1 i.2
  else some (inst1, w)

/-- Embedding of component_instance::handle_mouse_gain_capture: at the
empty route set the capture state to inside_immediate (1); otherwise set
it to inside_child (2) and forward along the route, silently stopping when
no child matches. -/
def Inst.handleMouseGainCaptureF (H : Host) : Nat → List Nat → Inst → World →
    Option (Inst × World)
  | 0, _, _, _ => none
  | fuel+1, [], inst, w => Inst.updateCaptureStateF H fuel 1 inst w
  | fuel+1, hd :: rest, inst, w =>
    match Inst.updateCaptureStateF H fuel 2 inst w with
    | none => none
    | some iw =>
      match iw.1.children.findIdx? (fun c => c.core.id == hd) with
      | some j =>
        (match iw.1.children.get? j with
         | some c =>
           (match Inst.handleMouseGainCaptureF H fuel rest c iw.2 with
            | some cw => some (iw.1.setChildren (iw.1.children.set j cw.1), cw.2)
            | none => none)
         | none => some iw)
      | none => some iw

/-- Embedding of component_instance::handle_mouse_lose_capture: set the
capture state to outside (0) on the current instance, then forward along
the route when it is non-empty, silently stopping when no child
matches. -/
def Inst.handleMouseLoseCaptureF (H : Host) : Nat → List Nat → Inst → World →
    Option (Inst × World)
  | 0, _, _, _ => none
  | fuel+1, [], inst, w => Inst.updateCaptureStateF H fuel 0 inst w
  | fuel+1, hd :: rest, inst, w =>
    match Inst.updateCaptureStateF H fuel 0 inst w with
    | none => none
    | some iw =>
      match iw.1.children.findIdx? (fun c => c.core.id == hd) with
      | some j =>
        (match iw.1.children.get? j with
         | some c =>
           (match Inst.handleMouseLoseCaptureF H fuel rest c iw.2 with
            | some cw => some (iw.1.setChildren (iw.1.children.set j cw.1), cw.2)
            | none => none)
         | none => some iw)
      | none => some iw

/-- Matching skeleton of reconcile_children, generic in the node type and
instrumented to record, for every new node in order, which old node it was
reconciled against: old nodes carry a tag, and each matched old node is
removed from the candidate list exactly as the erase in the source does.
The walk, the first-equal-key scan, the keyless positional fallback and
the fresh case are those of reconcile_children. -/
def rcMatches {α : Type} (key : α → Option String) :
    List α → List (Nat × α) → List (α × Option (Nat × α))
  | [], _ => []
  | n :: ns, olds =>
    match key n with
    | some k =>
      (match olds.findIdx? (fun o => key o.2 == some k) with
       | some j =>
         (match olds.get? j with
          | some o => (n, some o) :: rcMatches key ns (olds.eraseIdx j)
          | none => (n, none) :: rcMatches key ns olds)
       | none => (n, none) :: rcMatches key ns olds)
    | none =>
      match olds with
      | [] => (n, none) :: rcMatches key ns []
      | o :: os => (n, some o) :: rcMatches key ns os

/-- Tags of the old nodes consumed by a run of rcMatches, in match order. -/
def rcUsedTags {α : Type} (ms : List (α × Option (Nat × α))) : List Nat :=
  ms.filterMap (fun m => m.2.map (fun o => o.1))

/-- Contributions of val className attributes of one element, in
declaration order. -/
def classNames : List Attr → List String
  | [] => []
  | .val k v :: rest =>
    if k == "className" then v :: classNames rest else classNames rest
  | _ :: rest => classNames rest

/-- Space-separated concatenation, the merge the spec prescribes for
className. -/
def joinSp : List String → String
  | [] => ""
  | [v] => v
  | v :: vs => v ++ " " ++ joinSp vs

/-- Running className merge: the className value after folding further
contributions into an optional already-present value. -/
def cnFold : Option String → List String → Option String
  | c, [] => c
  | none, v :: vs => cnFold (some v) vs
  | some c, v :: vs => cnFold (some (c ++ " " ++ v)) vs

/-- Embedding of component_instance::render with the host exceptions made
explicit, statement for statement: the view invocation may trap
(Except.error carries the host exception value), the html list is
rendered, the reconcile of the new elements against the previous render
may trap through the hook closures it invokes, and only after all
fallible calls does the method assign m_handlers, m_children, m_render
and m_has_rendered.  The fallible collaborators are parameters so that
the statement quantifies over every trapping behaviour. -/
def Inst.renderE (invokeViewE : VObj → VObj → Except VObj (List Html)) (H : Host)
    (reconcileE : List Vdom → List Vdom → World → Except VObj (List Vdom × World))
    (inst : Inst) (w : World) : Except VObj (Inst × World) :=
  match invokeViewE inst.core.view (inst.core.innerProps.getD .junk) with
  | .error e => .error e
  | .ok htmls =>
    let r := renderHtmlListM H htmls (inst.core.id :: inst.core.route) w
    match reconcileE r.1 inst.render r.2.2 with
    | .error e => .error e
    | .ok ew =>
      .ok (.mk { inst.core with handlers := r.2.1, hasRendered := true }
        ew.1 (compsList ew.1), ew.2)

/-- Caller-side view of a render call: on success the instance is replaced
by the rendered one, on a trap the exception is surfaced and the instance
is left exactly as it was (the C++ throw unwinds before any member
assignment). -/
def Inst.renderRun (invokeViewE : VObj → VObj → Except VObj (List Html)) (H : Host)
    (reconcileE : List Vdom → List Vdom → World → Except VObj (List Vdom × World))
    (inst : Inst) (w : World) : Inst × World × Option VObj :=
  match Inst.renderE invokeViewE H reconcileE inst w with
  | .error e => (inst, w, some e)
  | .ok iw => (iw.1, iw.2, none)

/-- Concrete host whose closures all return none-like values and whose view
closures return the empty html list; component hashes are constant. -/
def host0 : Host :=
  { invoke1 := fun _ _ => vnone
    invoke2 := fun _ _ _ => vnone
    invoke3 := fun _ _ _ _ => vnone
    invokeView := fun _ _ => []
    peek := fun _ => none
    hashC := fun _ => 7 }

/-- Concrete host whose task queue reports every task as completed with
value 42. -/
def hostPeek : Host := { host0 with peek := fun _ => some (vsimple 42) }

/-- Initial world: counters at zero, no submitted tasks, no registered
completion routes. -/
def world0 : World := ⟨0, 0, 0, [], []⟩

/-- Core of a freshly built instance with no hooks. -/
def coreA : InstCore :=
  { id := 5
    route := []
    componentHash := 7
    props := vsimple 3
    innerProps := none
    hooks := []
    view := vnone
    hasRendered := false
    reconcileCount := 0
    handlers := [] }

/-- Freshly built instance with no hooks (unrendered). -/
def instNew : Inst := .mk coreA [] []

/-- Prior rendered instance matching instNew up to identity fields. -/
def instOld : Inst :=
  .mk { coreA with
        id := 2
        innerProps := some (vsimple 3)
        hasRendered := true
        reconcileCount := 4 }
    [Vdom.text "x"] []

/-- Freshly built instance whose props differ from instOld's. -/
def instB : Inst := .mk { coreA with props := vsimple 4 } [] []

/-- Expected result of reconciling instB against instOld: the re-render
path runs, so the fresh id 5 is kept while inner props come from the hook
fold and the handler table from the (empty) render. -/
def instBRendered : Inst :=
  .mk { coreA with
        props := vsimple 4
        innerProps := some (vsimple 4)
        hasRendered := true }
    [] []

/-- Instance with a single filter_map_action hook whose closure yields
none, so that action bubbling halts at the hook. -/
def fmaHook : Hook := .filterMapAction vnone (some (vsimple 0))

/-- Child instance with id 10 for routing fixtures. -/
def childC : Inst := .mk { coreA with id := 10 } [] []

/-- Parent instance with one registered handler (id 3), one
filter_map_action hook and one child of id 10. -/
def parentP : Inst :=
  .mk { coreA with
        id := 1
        handlers := [(3, vnone)]
        hooks := [fmaHook]
        hasRendered := true }
    [] [childC]

/-- Instance with one mapProps hook, for the handle_action overrun. -/
def instOneHook : Inst := .mk { coreA with hooks := [Hook.mapProps vnone] } [] []

/-- Rendered instance owning a single with_mouse_capture hook in the
outside state. -/
def mcInst : Inst :=
  .mk { coreA with
        id := 1
        innerProps := some (vpair (vsimple 0) (vsimple 3))
        hooks := [Hook.withMouseCapture 0]
        hasRendered := true }
    [] []

/-- The mouse-capture instance after handle_mouse_gain_capture([]): the
hook state is inside_immediate, yet the re-rendered inner props still
carry capture encoding 0. -/
def mcInstGained : Inst :=
  .mk { coreA with
        id := 1
        innerProps := some (vpair (vsimple 0) (vsimple 3))
        hooks := [Hook.withMouseCapture 1]
        hasRendered := true }
    [] []

/-- The mouse-capture instance after a subsequent
handle_mouse_lose_capture([]). -/
def mcInstLost : Inst :=
  .mk { coreA with
        id := 1
        innerProps := some (vpair (vsimple 0) (vsimple 3))
        hooks := [Hook.withMouseCapture 0]
        hasRendered := true }
    [] []

/-- Rendered instance owning a single with_task hook whose task id 0 has
been submitted. -/
def taskInst : Inst :=
  .mk { coreA with
        id := 1
        innerProps := some (vpair vnone (vsimple 3))
        hooks := [Hook.withTask vnone (some 0)]
        hasRendered := true }
    [] []

/-- The with_task instance after handle_task_completed([]) under hostPeek:
re-initialized, so the inner props now carry the completed value. -/
def taskInstDone : Inst :=
  .mk { coreA with
        id := 1
        innerProps := some (vpair (vsome (vsimple 42)) (vsimple 3))
        hooks := [Hook.withTask vnone (some 0)]
        hasRendered := true }
    [] []

/-- View invocation that traps with host exception value 1. -/
def failViewE : VObj → VObj → Except VObj (List Html) := fun _ _ => .error (vsimple 1)

/-- Reconcile collaborator that never traps. -/
def okReconcileE : List Vdom → List Vdom → World → Except VObj (List Vdom × World) :=
  fun n _ w => .ok (n, w)

mutual
theorem VObj.beq_refl : (x : VObj) → VObj.beq x x = true
  | .mk i fs => by simp [VObj.beq, VObj.beqList_refl fs]
  | .str a => by simp [VObj.beq]
  | .num a => by simp [VObj.beq]
  | .junk => by simp [VObj.beq]

theorem VObj.beqList_refl : (xs : List VObj) → VObj.beqList xs xs = true
  | [] => by simp [VObj.beqList]
  | a :: as => by simp [VObj.beqList, VObj.beq_refl a, VObj.beqList_refl as]
end

theorem reconcileHooksLoop_false (H : Host) :
    (hs olds : List Hook) → (p : VObj) → (w : World) → hs.length = olds.length →
    reconcileHooksLoop H hs olds p false w = (olds, p, false, w)
  | [], [], p, w, _ => by simp [reconcileHooksLoop]
  | [], o :: os, p, w, h => by simp at h
  | hh :: hs, [], p, w, hl => by simp at hl
  | hh :: hs, oh :: ohs, p, w, hl => by
    have ih := reconcileHooksLoop_false H hs ohs p w (by simpa using hl)
    simp [reconcileHooksLoop, ih]

theorem renderF_keeps_id (H : Host) :
    (fuel : Nat) → (inst : Inst) → (w : World) → (iw : Inst × World) →
    Inst.renderF H fuel inst w = some iw → iw.1.core.id = inst.core.id
  | 0, inst, w, iw, h => by simp [Inst.renderF] at h
  | fuel+1, inst, w, iw, h => by
    simp only [Inst.renderF] at h
    split at h
    · exact absurd h (by simp)
    · split at h
      · simp only [Option.some.injEq] at h
        rw [← h]
        simp [Inst.core]
      · exact absurd h (by simp)

/-- C1: reconciling a freshly rebuilt instance against a prior instance of
the same component description (equal component hash, equal hook chain
length) with host-equal props takes the not-should_update path: the new
instance adopts the prior instance's hooks, inner props, id, render and
children, its reconcile count is the prior count plus one, and the
rendered flag is set, with the world untouched. -/
theorem reconcile_self_adopts_identity (H : Host) (fuel : Nat) (w : World)
    (inst old : Inst)
    (hhash : inst.core.componentHash = old.core.componentHash)
    (hprops : inst.core.props = old.core.props)
    (hlen : inst.core.hooks.length = old.core.hooks.length) :
    Inst.reconcileF H (fuel + 1) inst (.comp old) w =
      some (.mk
        { inst.core with
            hooks := old.core.hooks
            innerProps := old.core.innerProps
            id := old.core.id
            hasRendered := true
            reconcileCount := old.core.reconcileCount + 1 }
        old.render old.children, w) := by
  have hbeq : VObj.beq inst.core.props old.core.props = true := by
    rw [hprops]; exact VObj.beq_refl _
  have hloop := reconcileHooksLoop_false H inst.core.hooks old.core.hooks
    inst.core.props w hlen
  simp [Inst.reconcileF, hhash, hbeq, hloop]

theorem reconcile_self_adopts_identity_witness :
    Inst.reconcileF host0 1 instNew (.comp instOld) world0 =
      some (.mk
        { instNew.core with
            hooks := instOld.core.hooks
            innerProps := instOld.core.innerProps
            id := instOld.core.id
            hasRendered := true
            reconcileCount := instOld.core.reconcileCount + 1 }
        instOld.render instOld.children, world0) :=
  reconcile_self_adopts_identity host0 0 world0 instNew instOld rfl rfl rfl

/-- C10: when component reconcile against an equal-hash prior instance
takes the re-render path (the should_update flag survives the hook loop),
the resulting instance keeps the id the fresh instance was constructed
with and does not adopt the prior instance's id. -/
theorem reconcile_update_keeps_fresh_id (H : Host) (fuel : Nat) (w : World)
    (inst old : Inst) (r : Inst) (w2 : World)
    (hrec : Inst.reconcileF H (fuel + 1) inst (.comp old) w = some (r, w2))
    (hhash : inst.core.componentHash = old.core.componentHash)
    (hsu : shouldUpdateAfterHooks H inst old w = true) :
    r.core.id = inst.core.id ∧
      (inst.core.id ≠ old.core.id → r.core.id ≠ old.core.id) := by
  simp only [shouldUpdateAfterHooks] at hsu
  simp only [Inst.reconcileF, hhash, Nat.beq_refl, if_true, beq_self_eq_true] at hrec
  rw [hsu] at hrec
  simp only [if_true] at hrec
  have hid : r.core.id = inst.core.id := renderF_keeps_id H fuel _ _ _ hrec
  refine ⟨hid, fun hne => ?_⟩
  rw [hid]
  exact hne

theorem reconcile_update_keeps_fresh_id_witness :
    instBRendered.core.id = instB.core.id ∧
      (instB.core.id ≠ instOld.core.id → instBRendered.core.id ≠ instOld.core.id) :=
  reconcile_update_keeps_fresh_id host0 2 world0 instB instOld instBRendered world0
    (by rfl) (by rfl) (by rfl)

/-- C2: evaluation of stateful_hook::reconcile against a carried-over
prior with state (vsimple 7): the hook-level reconcile does adopt the
prior state first, but then calls initialize twice, and both calls pass
mk_vm_none() as the prior-state argument (the ternary in initialize is
inverted), never Some(prior) as the claim and spec require. -/
theorem stateful_reconcile_double_init_none :
    (statefulReconcileTrace host0 vnone (vsimple 3) (some (vsimple 7))).2
        = [vnone, vnone] ∧
      vnone ≠ vsome (vsimple 7) ∧
      statefulInitArg (some (vsimple 7)) = vnone ∧
      Hook.reconcile host0 (vsimple 3)
          (Hook.withState vnone vnone none none)
          (Hook.withState vnone vnone (some (vsimple 3)) (some (vsimple 7))) world0
        = (true,
           Hook.withState vnone vnone (some (vsimple 3))
             (statefulReconcileTrace host0 vnone (vsimple 3) (some (vsimple 7))).1,
           world0) := by
  refine ⟨rfl, ?_, rfl, rfl⟩
  simp [vnone, vsome]

/-- C3: evaluation of component_instance::handle_action at an empty hook
chain and at a one-hook chain whose transformer returns Some: in both
runs the unsigned loop index wraps past zero and the code reads m_hooks
out of bounds instead of returning Some of the final action. -/
theorem handle_action_index_overrun :
    Inst.handleActionE host0 5 (vsimple 9) instNew = .error .oobRead ∧
      Inst.handleActionE host0 5 (vsimple 9) instOneHook = .error .oobRead ∧
      (∀ r : Option VObj × Inst,
        Inst.handleActionE host0 5 (vsimple 9) instNew ≠ .ok r) := by
  refine ⟨rfl, rfl, fun r h => ?_⟩
  rw [show Inst.handleActionE host0 5 (vsimple 9) instNew = .error .oobRead from rfl] at h
  exact absurd h (by simp)

/-- C4: evaluation of component_instance::handle_event.  A dangling route
(no child with id 55) does throw invalid_handler, and a present handler at
the empty route is invoked and passed through handle_action; but an absent
handler id at the empty route makes std::map operator[] insert a
default-constructed handler whose null value is then invoked (undefined
behaviour), which is not the invalid_handler failure the claim
requires. -/
theorem handle_event_missing_handler_not_invalid :
    Inst.handleEventF host0 5 [] 99 (vsimple 0) parentP = .error .nullInvoke ∧
      EvErr.nullInvoke ≠ EvErr.invalidHandler ∧
      Inst.handleEventF host0 5 [55] 3 (vsimple 0) parentP = .error .invalidHandler ∧
      Inst.handleEventF host0 5 [] 3 (vsimple 0) parentP = .ok (none, parentP) := by
  refine ⟨rfl, ?_, rfl, rfl⟩
  simp

/-- C5: evaluation of the mouse-capture lifecycle on an instance owning a
with_mouse_capture hook.  handle_mouse_gain_capture([]) flips the hook
state to inside_immediate (1) and re-renders, and
handle_mouse_lose_capture([]) flips it back to outside (0); but the
re-rendered inner props - the pair the view receives - carry
mk_vm_simple(0) in both states, because get_props ignores the stored
capture state, contradicting the claim that the view receives
inside_immediate after gaining capture. -/
theorem mouse_capture_get_props_ignores_state :
    Inst.handleMouseGainCaptureF host0 3 [] mcInst world0 = some (mcInstGained, world0) ∧
      mcInstGained.core.hooks = [Hook.withMouseCapture 1] ∧
      mcInstGained.core.innerProps = some (vpair (vsimple 0) (vsimple 3)) ∧
      (∀ s : Nat, Hook.getProps host0 (vsimple 3) (Hook.withMouseCapture s)
        = (vpair (vsimple 0) (vsimple 3), Hook.withMouseCapture s)) ∧
      vsimple 0 ≠ vsimple 1 ∧
      Inst.handleMouseLoseCaptureF host0 3 [] mcInstGained world0 = some (mcInstLost, world0) ∧
      mcInstLost.core.hooks = [Hook.withMouseCapture 0] := by
  refine ⟨rfl, rfl, rfl, fun s => rfl, ?_, rfl, rfl⟩
  simp [vsimple]

/-- C7: evaluation of with_task_hook::initialize on a fresh hook: the task
is built and submitted (task id 0 enters the queue), but no completion
notification is registered for any route - the source leaves that wiring
as a commented-out TODO - so the engine is never told that peek
transitioned to Some.  Conversely, when handle_task_completed([]) is
delivered by hand, the instance re-initializes and re-renders and the
view's props then carry Some of the task result, confirming the claim's
intent on the delivery path. -/
theorem with_task_no_completion_notification :
    Hook.initialize host0 (vsimple 3) (Hook.withTask vnone none) world0
        = (Hook.withTask vnone (some 0),
           { world0 with nextTaskId := 1, submitted := [0] }) ∧
      ({ world0 with nextTaskId := 1, submitted := [0] } : World).pendingRoutes = [] ∧
      Inst.handleTaskCompletedF hostPeek 3 [] taskInst world0
        = some (taskInstDone, world0) ∧
      taskInstDone.core.innerProps = some (vpair (vsome (vsimple 42)) (vsimple 3)) :=
  ⟨rfl, rfl, rfl, rfl⟩

/-- C9: when any fallible collaborator of component_instance::render traps
(the view invocation or the reconcile of the new elements, both of which
invoke host closures), the host exception is surfaced unchanged and the
instance keeps its previous render, children and handler table - the
member assignments of render() all come after the last fallible call. -/
theorem render_failure_leaves_tree_unchanged
    (invokeViewE : VObj → VObj → Except VObj (List Html)) (H : Host)
    (reconcileE : List Vdom → List Vdom → World → Except VObj (List Vdom × World))
    (inst : Inst) (w : World) (e : VObj)
    (h : Inst.renderE invokeViewE H reconcileE inst w = .error e) :
    Inst.renderRun invokeViewE H reconcileE inst w = (inst, w, some e) ∧
      (Inst.renderRun invokeViewE H reconcileE inst w).1.render = inst.render ∧
      (Inst.renderRun invokeViewE H reconcileE inst w).1.children = inst.children ∧
      (Inst.renderRun invokeViewE H reconcileE inst w).1.core.handlers
        = inst.core.handlers := by
  simp [Inst.renderRun, h]

theorem render_failure_leaves_tree_unchanged_witness :
    Inst.renderRun failViewE host0 okReconcileE parentP world0
        = (parentP, world0, some (vsimple 1)) ∧
      (Inst.renderRun failViewE host0 okReconcileE parentP world0).1.render
        = parentP.render ∧
      (Inst.renderRun failViewE host0 okReconcileE parentP world0).1.children
        = parentP.children ∧
      (Inst.renderRun failViewE host0 okReconcileE parentP world0).1.core.handlers
        = parentP.core.handlers :=
  render_failure_leaves_tree_unchanged failViewE host0 okReconcileE parentP world0
    (vsimple 1) rfl

theorem mapFst_eraseIdx {α : Type} :
    (l : List (Nat × α)) → (j : Nat) →
    (l.eraseIdx j).map Prod.fst = (l.map Prod.fst).eraseIdx j
  | [], j => by simp
  | x :: xs, 0 => by simp [List.eraseIdx]
  | x :: xs, j+1 => by simp [List.eraseIdx, mapFst_eraseIdx xs j]

theorem nodup_get_not_mem_eraseIdx :
    (l : List Nat) → (j : Nat) → (x : Nat) → l.Nodup → l.get? j = some x →
    x ∉ l.eraseIdx j
  | [], j, x, _, h => by simp at h
  | a :: t, 0, x, hN, h => by
    simp at h
    subst h
    simpa [List.eraseIdx] using (List.nodup_cons.mp hN).1
  | a :: t, j+1, x, hN, h => by
    simp only [List.get?] at h
    have hN2 := List.nodup_cons.mp hN
    have ih := nodup_get_not_mem_eraseIdx t j x hN2.2 h
    have hxt : x ∈ t := List.get?_mem h
    have hxa : x ≠ a := fun he => hN2.1 (he ▸ hxt)
    simp [List.eraseIdx, hxa, ih]

theorem mem_mapFst_eraseIdx {α : Type} (l : List (Nat × α)) (j : Nat) (a : Nat)
    (h : a ∈ (l.eraseIdx j).map Prod.fst) : a ∈ l.map Prod.fst := by
  rw [mapFst_eraseIdx] at h
  exact (List.eraseIdx_sublist _ j).subset h

theorem nodup_mapFst_eraseIdx {α : Type} (l : List (Nat × α)) (j : Nat)
    (h : (l.map Prod.fst).Nodup) : ((l.eraseIdx j).map Prod.fst).Nodup := by
  rw [mapFst_eraseIdx]
  exact List.Nodup.sublist (List.eraseIdx_sublist _ j) h

theorem rcUsedTags_nil {α : Type} :
    rcUsedTags ([] : List (α × Option (Nat × α))) = [] := rfl

theorem rcUsedTags_cons_some {α : Type} (n : α) (o : Nat × α)
    (ms : List (α × Option (Nat × α))) :
    rcUsedTags ((n, some o) :: ms) = o.1 :: rcUsedTags ms := rfl

theorem rcUsedTags_cons_none {α : Type} (n : α)
    (ms : List (α × Option (Nat × α))) :
    rcUsedTags ((n, none) :: ms) = rcUsedTags ms := rfl

theorem rcMatches_cons_keyed_found {α : Type} (key : α → Option String)
    (n : α) (ns : List α) (olds : List (Nat × α)) (k : String) (j : Nat)
    (o : Nat × α) (hk : key n = some k)
    (hfind : olds.findIdx? (fun x => key x.2 == some k) = some j)
    (hget : olds.get? j = some o) :
    rcMatches key (n :: ns) olds = (n, some o) :: rcMatches key ns (olds.eraseIdx j) := by
  rw [List.get?_eq_getElem?] at hget
  simp [rcMatches, hk, hfind, hget]

theorem rcMatches_cons_keyed_missing {α : Type} (key : α → Option String)
    (n : α) (ns : List α) (olds : List (Nat × α)) (k : String)
    (hk : key n = some k)
    (hfind : olds.findIdx? (fun x => key x.2 == some k) = none) :
    rcMatches key (n :: ns) olds = (n, none) :: rcMatches key ns olds := by
  simp [rcMatches, hk, hfind]

theorem rcMatches_cons_keyless_cons {α : Type} (key : α → Option String)
    (n : α) (ns : List α) (o : Nat × α) (os : List (Nat × α))
    (hk : key n = none) :
    rcMatches key (n :: ns) (o :: os) = (n, some o) :: rcMatches key ns os := by
  simp [rcMatches, hk]

theorem rcMatches_cons_keyless_nil {α : Type} (key : α → Option String)
    (n : α) (ns : List α) (hk : key n = none) :
    rcMatches key (n :: ns) [] = (n, none) :: rcMatches key ns [] := by
  simp [rcMatches, hk]

theorem rcUsed_nodup_subset {α : Type} (key : α → Option String) :
    (news : List α) → (olds : List (Nat × α)) → ((olds.map Prod.fst).Nodup) →
    (rcUsedTags (rcMatches key news olds)).Nodup ∧
      ∀ a ∈ rcUsedTags (rcMatches key news olds), a ∈ olds.map Prod.fst
  | [], olds, _ => by
    rw [show rcMatches key [] olds = [] from rfl, rcUsedTags_nil]
    exact ⟨List.nodup_nil, fun a ha => absurd ha (List.not_mem_nil a)⟩
  | n :: ns, olds, hN => by
    rcases hk : key n with _ | k
    · rcases holds : olds with _ | ⟨o, os⟩
      · subst holds
        have ih := rcUsed_nodup_subset key ns [] (by simp)
        rw [rcMatches_cons_keyless_nil key n ns hk, rcUsedTags_cons_none]
        exact ih
      · subst holds
        have hcons := List.nodup_cons.mp (show (o.1 :: os.map Prod.fst).Nodup by
          simpa using hN)
        have ih := rcUsed_nodup_subset key ns os hcons.2
        rw [rcMatches_cons_keyless_cons key n ns o os hk, rcUsedTags_cons_some]
        refine ⟨List.nodup_cons.mpr ⟨fun hm => hcons.1 (ih.2 _ hm), ih.1⟩, ?_⟩
        intro a ha
        rcases List.mem_cons.mp ha with h1 | h2
        · simp [h1]
        · have := ih.2 _ h2
          simp only [List.map_cons]
          exact List.mem_cons.mpr (Or.inr this)
    · rcases hfind : olds.findIdx? (fun x => key x.2 == some k) with _ | j
      · have ih := rcUsed_nodup_subset key ns olds hN
        rw [rcMatches_cons_keyed_missing key n ns olds k hk hfind, rcUsedTags_cons_none]
        exact ih
      · rcases hget : olds.get? j with _ | o
        · have ih := rcUsed_nodup_subset key ns olds hN
          have heq : rcMatches key (n :: ns) olds = (n, none) :: rcMatches key ns olds := by
            rw [List.get?_eq_getElem?] at hget
            simp [rcMatches, hk, hfind, hget]
          rw [heq, rcUsedTags_cons_none]
          exact ih
        · have hN2 := nodup_mapFst_eraseIdx olds j hN
          have ih := rcUsed_nodup_subset key ns (olds.eraseIdx j) hN2
          have hfst : (olds.map Prod.fst).get? j = some o.1 := by
            rw [List.get?_eq_getElem?, List.getElem?_map]
            rw [List.get?_eq_getElem?] at hget
            rw [hget]
            rfl
          have hanot : o.1 ∉ (olds.eraseIdx j).map Prod.fst := by
            rw [mapFst_eraseIdx]
            exact nodup_get_not_mem_eraseIdx _ j _ hN hfst
          rw [rcMatches_cons_keyed_found key n ns olds k j o hk hfind hget,
            rcUsedTags_cons_some]
          refine ⟨List.nodup_cons.mpr ⟨fun hm => hanot (ih.2 _ hm), ih.1⟩, ?_⟩
          intro a ha
          rcases List.mem_cons.mp ha with h1 | h2
          · rw [h1]
            exact List.get?_mem hfst
          · exact mem_mapFst_eraseIdx _ _ _ (ih.2 _ h2)

/-- C6: the sibling walk of reconcile_children visits the new nodes left
to right; a keyed new node pairs with the first remaining old node of
equal key, which is removed from the candidates; a keyless new node pairs
with the first remaining candidate when one exists and is otherwise left
fresh; consequently, for old nodes carrying distinct tags, the tags of the
old nodes consumed across the whole walk are pairwise distinct and all
drawn from the candidate list - no prior node is ever reused. -/
theorem reconcile_children_no_reuse {α : Type} (key : α → Option String)
    (news : List α) (olds : List (Nat × α))
    (hN : (olds.map Prod.fst).Nodup) :
    (rcUsedTags (rcMatches key news olds)).Nodup ∧
      (∀ a ∈ rcUsedTags (rcMatches key news olds), a ∈ olds.map Prod.fst) ∧
      (∀ (n : α) (ns : List α) (k : String) (j : Nat) (o : Nat × α),
        key n = some k →
        olds.findIdx? (fun x => key x.2 == some k) = some j →
        olds.get? j = some o →
        rcMatches key (n :: ns) olds
          = (n, some o) :: rcMatches key ns (olds.eraseIdx j)) ∧
      (∀ (n : α) (ns : List α) (k : String),
        key n = some k →
        olds.findIdx? (fun x => key x.2 == some k) = none →
        rcMatches key (n :: ns) olds = (n, none) :: rcMatches key ns olds) ∧
      (∀ (n : α) (ns : List α) (o : Nat × α) (os : List (Nat × α)),
        key n = none → olds = o :: os →
        rcMatches key (n :: ns) olds = (n, some o) :: rcMatches key ns os) ∧
      (∀ (n : α) (ns : List α),
        key n = none → olds = [] →
        rcMatches key (n :: ns) olds = (n, none) :: rcMatches key ns []) := by
  have hmain := rcUsed_nodup_subset key news olds hN
  refine ⟨hmain.1, hmain.2, ?_, ?_, ?_, ?_⟩
  · intro n ns k j o hk hfind hget
    exact rcMatches_cons_keyed_found key n ns olds k j o hk hfind hget
  · intro n ns k hk hfind
    exact rcMatches_cons_keyed_missing key n ns olds k hk hfind
  · intro n ns o os hk holds
    subst holds
    exact rcMatches_cons_keyless_cons key n ns o os hk
  · intro n ns hk holds
    subst holds
    exact rcMatches_cons_keyless_nil key n ns hk

theorem reconcile_children_no_reuse_witness :
    (rcUsedTags (rcMatches (fun x : Option String => x)
        [some "a", none, some "z"]
        [(0, some "b"), (1, some "a"), (2, none)])).Nodup ∧
      (∀ a ∈ rcUsedTags (rcMatches (fun x : Option String => x)
          [some "a", none, some "z"]
          [(0, some "b"), (1, some "a"), (2, none)]),
        a ∈ [(0, some "b"), (1, some "a"), (2, none)].map
          (Prod.fst (α := Nat) (β := Option String))) :=
  ⟨(reconcile_children_no_reuse (fun x => x) [some "a", none, some "z"]
      [(0, some "b"), (1, some "a"), (2, none)] (by decide)).1,
   (reconcile_children_no_reuse (fun x => x) [some "a", none, some "z"]
      [(0, some "b"), (1, some "a"), (2, none)] (by decide)).2.1⟩

theorem lookupA_upsert_self {κ β : Type} [BEq κ] [LawfulBEq κ] :
    (l : List (κ × β)) → (k : κ) → (v : β) → lookupA (upsert l k v) k = some v
  | [], k, v => by simp [upsert, lookupA]
  | (k0, v0) :: rest, k, v => by
    by_cases h : k0 = k
    · subst h
      simp [upsert, lookupA]
    · have hb : (k0 == k) = false := beq_eq_false_iff_ne.mpr h
      simp [upsert, lookupA, hb, lookupA_upsert_self rest k v]

theorem lookupA_upsert_other {κ β : Type} [BEq κ] [LawfulBEq κ] :
    (l : List (κ × β)) → (k k2 : κ) → (v : β) → k2 ≠ k →
    lookupA (upsert l k v) k2 = lookupA l k2
  | [], k, k2, v, h => by
    have hb : (k == k2) = false := beq_eq_false_iff_ne.mpr (Ne.symm h)
    simp [upsert, lookupA, hb]
  | (k0, v0) :: rest, k, k2, v, h => by
    by_cases h0 : k0 = k
    · subst h0
      have hb : (k0 == k2) = false := beq_eq_false_iff_ne.mpr (fun he => h he.symm)
      simp [upsert, lookupA, hb]
    · have hb0 : (k0 == k) = false := beq_eq_false_iff_ne.mpr h0
      by_cases h2 : k0 = k2
      · subst h2
        simp [upsert, lookupA, hb0]
      · have hb2 : (k0 == k2) = false := beq_eq_false_iff_ne.mpr h2
        simp [upsert, lookupA, hb0, hb2, lookupA_upsert_other rest k k2 v h]

theorem mem_upsert_keys {κ β : Type} [BEq κ] [LawfulBEq κ] :
    (l : List (κ × β)) → (k a : κ) → (v : β) →
    a ∈ (upsert l k v).map Prod.fst → a ∈ l.map Prod.fst ∨ a = k
  | [], k, a, v, h => by
    simp [upsert] at h
    exact Or.inr h
  | (k0, v0) :: rest, k, a, v, h => by
    by_cases h0 : (k0 == k) = true
    · simp only [upsert, if_pos h0, List.map_cons] at h
      rcases List.mem_cons.mp h with h1 | h2
      · exact Or.inl (List.mem_cons.mpr (Or.inl h1))
      · exact Or.inl (List.mem_cons.mpr (Or.inr h2))
    · simp only [upsert, if_neg h0, List.map_cons] at h
      rcases List.mem_cons.mp h with h1 | h2
      · exact Or.inl (List.mem_cons.mpr (Or.inl h1))
      · rcases mem_upsert_keys rest k a v h2 with h3 | h4
        · exact Or.inl (List.mem_cons.mpr (Or.inr h3))
        · exact Or.inr h4

theorem upsert_nodup {κ β : Type} [BEq κ] [LawfulBEq κ] :
    (l : List (κ × β)) → (k : κ) → (v : β) →
    ((l.map Prod.fst).Nodup) → (((upsert l k v).map Prod.fst).Nodup)
  | [], k, v, _ => by simp [upsert]
  | (k0, v0) :: rest, k, v, hN => by
    rw [List.map_cons] at hN
    have hc := List.nodup_cons.mp hN
    by_cases h0 : (k0 == k) = true
    · simp only [upsert, if_pos h0, List.map_cons]
      exact List.nodup_cons.mpr ⟨hc.1, hc.2⟩
    · simp only [upsert, if_neg h0, List.map_cons]
      have ih := upsert_nodup rest k v hc.2
      have hk0 : k0 ∉ (upsert rest k v).map Prod.fst := fun hm => by
        rcases mem_upsert_keys rest k k0 v hm with h1 | h2
        · exact hc.1 h1
        · exact h0 (by simp [h2])
      exact List.nodup_cons.mpr ⟨hk0, ih⟩

theorem applyValAttr_nodup (attrs : List (String × JVal)) (k v : String)
    (hN : ((attrs.map Prod.fst).Nodup)) :
    (((applyValAttr attrs k v).map Prod.fst).Nodup) := by
  unfold applyValAttr
  split
  · split
    · exact upsert_nodup attrs _ _ hN
    · exact upsert_nodup attrs _ _ hN
    · exact upsert_nodup attrs _ _ hN
  · exact upsert_nodup attrs _ _ hN

theorem setStyle_nodup (attrs : List (String × JVal)) (k v : String)
    (hN : ((attrs.map Prod.fst).Nodup)) :
    (((setStyle attrs k v).map Prod.fst).Nodup) := by
  unfold setStyle
  split
  · exact upsert_nodup attrs _ _ hN
  · exact upsert_nodup attrs _ _ hN

theorem styleMerge_nodup :
    (pairs : List (String × String)) → (attrs : List (String × JVal)) →
    ((attrs.map Prod.fst).Nodup) → (((styleMerge attrs pairs).map Prod.fst).Nodup)
  | [], attrs, hN => by simpa [styleMerge] using hN
  | p :: ps, attrs, hN => by
    have := styleMerge_nodup ps (setStyle attrs p.1 p.2) (setStyle_nodup attrs p.1 p.2 hN)
    simpa [styleMerge] using this

theorem setStyle_lookup_cn (attrs : List (String × JVal)) (k v : String) :
    lookupA (setStyle attrs k v) "className" = lookupA attrs "className" := by
  unfold setStyle
  split
  · exact lookupA_upsert_other attrs "style" "className" _ (by decide)
  · exact lookupA_upsert_other attrs "style" "className" _ (by decide)

theorem styleMerge_lookup_cn :
    (pairs : List (String × String)) → (attrs : List (String × JVal)) →
    lookupA (styleMerge attrs pairs) "className" = lookupA attrs "className"
  | [], attrs => by simp [styleMerge]
  | p :: ps, attrs => by
    rw [show styleMerge attrs (p :: ps) = styleMerge (setStyle attrs p.1 p.2) ps from by
      simp [styleMerge]]
    rw [styleMerge_lookup_cn ps (setStyle attrs p.1 p.2), setStyle_lookup_cn]

theorem applyValAttr_lookup_cn_other (attrs : List (String × JVal)) (k v : String)
    (hk : k ≠ "className") :
    lookupA (applyValAttr attrs k v) "className" = lookupA attrs "className" := by
  unfold applyValAttr
  rw [if_neg (by simp [hk])]
  exact lookupA_upsert_other attrs k "className" _ (Ne.symm hk)

theorem renderAttrList_cn (H : Host) :
    (attrs : List Attr) → (acc : AttrAcc) → (route : List Nat) → (w : World) →
    (c : Option String) →
    lookupA acc.attributes "className" = c.map JVal.s →
    lookupA (renderAttrList H attrs acc route w).1.attributes "className"
      = (cnFold c (classNames attrs)).map JVal.s
  | [], acc, route, w, c, h => by
    simpa [renderAttrList, classNames, cnFold] using h
  | .val k v :: rest, acc, route, w, c, h => by
    rw [show renderAttrList H (.val k v :: rest) acc route w
        = renderAttrList H rest ⟨applyValAttr acc.attributes k v, acc.events, acc.tooltip⟩
            route w from by simp [renderAttrList]]
    by_cases hk : k = "className"
    · subst hk
      rcases c with _ | cn
      · simp only [Option.map_none'] at h
        have happ : applyValAttr acc.attributes "className" v
            = upsert acc.attributes "className" (JVal.s v) := by
          unfold applyValAttr
          rw [if_pos (by simp), h]
        have ih := renderAttrList_cn H rest
          ⟨applyValAttr acc.attributes "className" v, acc.events, acc.tooltip⟩ route w
          (some v) (by
            show lookupA (applyValAttr acc.attributes "className" v) "className" = _
            rw [happ, lookupA_upsert_self]
            rfl)
        rw [ih]
        simp [classNames, cnFold]
      · simp only [Option.map_some'] at h
        have happ : applyValAttr acc.attributes "className" v
            = upsert acc.attributes "className" (JVal.s (cn ++ " " ++ v)) := by
          unfold applyValAttr
          rw [if_pos (by simp), h]
        have ih := renderAttrList_cn H rest
          ⟨applyValAttr acc.attributes "className" v, acc.events, acc.tooltip⟩ route w
          (some (cn ++ " " ++ v)) (by
            show lookupA (applyValAttr acc.attributes "className" v) "className" = _
            rw [happ, lookupA_upsert_self]
            rfl)
        rw [ih]
        simp [classNames, cnFold]
    · have ih := renderAttrList_cn H rest
        ⟨applyValAttr acc.attributes k v, acc.events, acc.tooltip⟩ route w c (by
          show lookupA (applyValAttr acc.attributes k v) "className" = _
          rw [applyValAttr_lookup_cn_other acc.attributes k v hk]
          exact h)
      rw [ih]
      have : classNames (.val k v :: rest) = classNames rest := by
        simp [classNames, hk]
      rw [this]
  | .mouseEvent kind handler :: rest, acc, route, w, c, h => by
    rw [show (renderAttrList H (.mouseEvent kind handler :: rest) acc route w).1
        = (renderAttrList H rest
            ⟨acc.attributes, upsert acc.events (mouseEventName kind) w.nextHandlerId,
              acc.tooltip⟩
            route { w with nextHandlerId := w.nextHandlerId + 1 }).1 from by
      simp [renderAttrList]]
    rw [renderAttrList_cn H rest
      ⟨acc.attributes, upsert acc.events (mouseEventName kind) w.nextHandlerId,
        acc.tooltip⟩
      route { w with nextHandlerId := w.nextHandlerId + 1 } c h]
    rfl
  | .style pairs :: rest, acc, route, w, c, h => by
    rw [show renderAttrList H (.style pairs :: rest) acc route w
        = renderAttrList H rest ⟨styleMerge acc.attributes pairs, acc.events, acc.tooltip⟩
            route w from by simp [renderAttrList]]
    rw [renderAttrList_cn H rest
      ⟨styleMerge acc.attributes pairs, acc.events, acc.tooltip⟩ route w c (by
        show lookupA (styleMerge acc.attributes pairs) "className" = _
        rw [styleMerge_lookup_cn pairs acc.attributes]
        exact h)]
    rfl
  | .tooltip content :: rest, acc, route, w, c, h => by
    rw [show (renderAttrList H (.tooltip content :: rest) acc route w).1
        = (renderAttrList H rest
            ⟨acc.attributes, acc.events, some (renderHtml H content route w).1⟩
            route (renderHtml H content route w).2.2).1 from by
      simp [renderAttrList]]
    rw [renderAttrList_cn H rest
      ⟨acc.attributes, acc.events, some (renderHtml H content route w).1⟩
      route (renderHtml H content route w).2.2 c h]
    rfl
  | .textChangeEvent handler :: rest, acc, route, w, c, h => by
    rw [show (renderAttrList H (.textChangeEvent handler :: rest) acc route w).1
        = (renderAttrList H rest
            ⟨acc.attributes, upsert acc.events "onChange" w.nextHandlerId, acc.tooltip⟩
            route { w with nextHandlerId := w.nextHandlerId + 1 }).1 from by
      simp [renderAttrList]]
    rw [renderAttrList_cn H rest
      ⟨acc.attributes, upsert acc.events "onChange" w.nextHandlerId, acc.tooltip⟩
      route { w with nextHandlerId := w.nextHandlerId + 1 } c h]
    rfl

theorem renderAttrList_nodup (H : Host) :
    (attrs : List Attr) → (acc : AttrAcc) → (route : List Nat) → (w : World) →
    ((acc.attributes.map Prod.fst).Nodup) →
    (((renderAttrList H attrs acc route w).1.attributes).map Prod.fst).Nodup
  | [], acc, route, w, h => by simpa [renderAttrList] using h
  | .val k v :: rest, acc, route, w, h => by
    rw [show renderAttrList H (.val k v :: rest) acc route w
        = renderAttrList H rest ⟨applyValAttr acc.attributes k v, acc.events, acc.tooltip⟩
            route w from by simp [renderAttrList]]
    exact renderAttrList_nodup H rest _ route w (applyValAttr_nodup acc.attributes k v h)
  | .mouseEvent kind handler :: rest, acc, route, w, h => by
    rw [show (renderAttrList H (.mouseEvent kind handler :: rest) acc route w).1
        = (renderAttrList H rest
            ⟨acc.attributes, upsert acc.events (mouseEventName kind) w.nextHandlerId,
              acc.tooltip⟩
            route { w with nextHandlerId := w.nextHandlerId + 1 }).1 from by
      simp [renderAttrList]]
    exact renderAttrList_nodup H rest _ _ _ h
  | .style pairs :: rest, acc, route, w, h => by
    rw [show renderAttrList H (.style pairs :: rest) acc route w
        = renderAttrList H rest ⟨styleMerge acc.attributes pairs, acc.events, acc.tooltip⟩
            route w from by simp [renderAttrList]]
    exact renderAttrList_nodup H rest _ route w (styleMerge_nodup pairs acc.attributes h)
  | .tooltip content :: rest, acc, route, w, h => by
    rw [show (renderAttrList H (.tooltip content :: rest) acc route w).1
        = (renderAttrList H rest
            ⟨acc.attributes, acc.events, some (renderHtml H content route w).1⟩
            route (renderHtml H content route w).2.2).1 from by
      simp [renderAttrList]]
    exact renderAttrList_nodup H rest _ _ _ h
  | .textChangeEvent handler :: rest, acc, route, w, h => by
    rw [show (renderAttrList H (.textChangeEvent handler :: rest) acc route w).1
        = (renderAttrList H rest
            ⟨acc.attributes, upsert acc.events "onChange" w.nextHandlerId, acc.tooltip⟩
            route { w with nextHandlerId := w.nextHandlerId + 1 }).1 from by
      simp [renderAttrList]]
    exact renderAttrList_nodup H rest _ _ _ h

theorem joinSp_append_head (c v : String) :
    (vs : List String) → joinSp ((c ++ " " ++ v) :: vs) = joinSp (c :: v :: vs)
  | [] => by simp [joinSp]
  | v2 :: vs2 => by simp [joinSp, String.append_assoc]

theorem cnFold_some_joinSp :
    (vs : List String) → (c : String) → cnFold (some c) vs = some (joinSp (c :: vs))
  | [], c => by simp [cnFold, joinSp]
  | v :: vs, c => by
    rw [show cnFold (some c) (v :: vs) = cnFold (some (c ++ " " ++ v)) vs from rfl]
    rw [cnFold_some_joinSp vs (c ++ " " ++ v)]
    rw [joinSp_append_head c v vs]

/-- C8: rendering the attribute list of one element yields an attribute
map whose keys are pairwise distinct, and whose className entry is the
running space-separated merge of all val className contributions in
declaration order; in particular, when the contributions are v1 .. vn the
serialized className equals their space-joined concatenation (and is
absent when there are none). -/
theorem render_element_attr_map (H : Host) (attrs : List Attr) (route : List Nat)
    (w : World) :
    (((renderAttrList H attrs ⟨[], [], none⟩ route w).1.attributes).map Prod.fst).Nodup ∧
      lookupA (renderAttrList H attrs ⟨[], [], none⟩ route w).1.attributes "className"
        = (cnFold none (classNames attrs)).map JVal.s ∧
      ∀ (v : String) (vs : List String), classNames attrs = v :: vs →
        (cnFold none (classNames attrs)).map JVal.s
          = some (JVal.s (joinSp (v :: vs))) := by
  refine ⟨renderAttrList_nodup H attrs ⟨[], [], none⟩ route w (by simp),
    renderAttrList_cn H attrs ⟨[], [], none⟩ route w none (by simp [lookupA]), ?_⟩
  intro v vs hcn
  rw [hcn]
  rw [show cnFold none (v :: vs) = cnFold (some v) vs from rfl]
  rw [cnFold_some_joinSp vs v]
  rfl
